import Mathlib

/-
Verification of the gym_malmo experiment-orchestration core.

The development shallowly embeds two source files:
  - rosalind/experiment_runners/experiment_utils.py (experiment orchestration:
    train_model, run_new_single_experiment_with_monitoring,
    continue_experiement_with_monitoring, continue_experiment_group,
    copy_files, save_experiment_checkpoint), and
  - common/malmo/malmo_env.py (MalmoEnvironment.step and the mission-startup
    retry loop of MalmoEnvironment.reset).

The database query layer (rosalind/db/queries.py) and the experiment monitor
are collaborators whose sources are not part of the embedded tree; their
semantics are modelled from the specification where marked.  External side
effects (status writes, messages to the owner, checkpointing, sleeps) are
recorded as an explicit event trace.
-/

set_option autoImplicit false

namespace GymMalmo

/-! ### Association-list helpers

Python dictionaries and directory listings are modelled as ordered
association lists.  An update replaces the first binding in place when the
key is present and appends otherwise. -/

def getAssoc {α : Type} : List (String × α) → String → Option α
  | [], _ => none
  | (k, v) :: rest, n => if k = n then some v else getAssoc rest n

def setAssoc {α : Type} : List (String × α) → String → α → List (String × α)
  | [], n, v => [(n, v)]
  | (k, w) :: rest, n, v =>
    if k = n then (k, v) :: rest else (k, w) :: setAssoc rest n v

def assocKeys {α : Type} (l : List (String × α)) : List String :=
  l.map Prod.fst

/-! ### Filesystem model for copy_files and save_experiment_checkpoint

A directory listing is an ordered association list from entry names to
entries.  An entry directly inside the log directory is either a regular
file (with its content) or a subdirectory; subdirectory contents are
modelled as flat name-to-content maps, since nothing in the embedded code
ever recurses into a subdirectory (copy_files skips directories and only
ever writes regular files into the checkpoint directory). -/

inductive FsEntry : Type where
  | file (content : String)
  | dir (entries : List (String × String))
deriving DecidableEq

inductive FsError : Type where
  | fileExists
deriving DecidableEq

/-- Embedding of copy_files(src, dst): iterate over the listing of src in
order and copy every entry that is not a directory into dst, overwriting an
existing destination entry of the same name (shutil.copy2). -/
def copy_files : List (String × FsEntry) → List (String × String) → List (String × String)
  | [], dst => dst
  | (n, FsEntry.file c) :: rest, dst => copy_files rest (setAssoc dst n c)
  | (_, FsEntry.dir _) :: rest, dst => copy_files rest dst

/-- Embedding of save_experiment_checkpoint(log_dir): compute the
checkpoint path, create the checkpoint directory when no directory of that
name exists (os.mkdir raises when a regular file of that name is already
present), then copy_files the top level of log_dir into it.  The listing
passed to copy_files is taken after the mkdir, as os.listdir is called
after it in the source. -/
def save_experiment_checkpoint (logDir : List (String × FsEntry)) :
    Except FsError (List (String × FsEntry)) :=
  match getAssoc logDir "checkpoint" with
  | some (FsEntry.file _) => Except.error FsError.fileExists
  | some (FsEntry.dir cp) =>
    Except.ok (setAssoc logDir "checkpoint" (FsEntry.dir (copy_files logDir cp)))
  | none =>
    let logDir2 := setAssoc logDir "checkpoint" (FsEntry.dir [])
    Except.ok (setAssoc logDir2 "checkpoint" (FsEntry.dir (copy_files logDir2 [])))

/-! ### Rosalind data model

Experiment and client-pool records as used by experiment_utils.py.
Model-parameter dictionaries map string keys to Python values. -/

inductive PyVal : Type where
  | vStr (s : String)
  | vInt (n : Int)
  | vPair (a b : PyVal)
deriving DecidableEq

inductive ExperimentStatus : Type where
  | PENDING
  | RUNNING
  | COMPLETED
  | FAILED
deriving DecidableEq

inductive ClientStatus : Type where
  | AVALIABLE
  | RESERVED
deriving DecidableEq

structure Client : Type where
  address : String
  status : ClientStatus
  currentExperiment : Option Nat
deriving DecidableEq

structure Experiment : Type where
  id : Nat
  groupId : Nat
  model : String
  envId : String
  owner : Nat
  totalTimesteps : Int
  logDir : String
  modelParams : List (String × PyVal)
  status : ExperimentStatus
  pid : Option Nat
  endDateSet : Bool
deriving DecidableEq

structure DB : Type where
  experiments : List Experiment
  clients : List Client
deriving DecidableEq

inductive PyError : Type where
  | indexError
  | typeError
  | valueError
  | keyError (msg : String)
  | nameError
  | notFound
  | duplicateKey
  | osError (tb : String)
deriving DecidableEq

/-- Observable side effects of a run, recorded in order of occurrence. -/
inductive Event : Type where
  | statusWrite (eid : Nat) (s : ExperimentStatus)
  | endDateWrite (eid : Nat)
  | pidWrite (eid : Nat)
  | paramsPersist (eid : Nat)
  | messageSent (owner : Nat) (text : String)
  | clientReserved (addr : String)
  | clientReleased (addr : String)
  | checkpointTaken (dir : String)
  | paramSet (key : String)
  | monitorStart
  | monitorStop
  | sleep (secs : Nat)
  | relaunchAttempt (eid : Nat)
  | processStart (eid : Nat)
deriving DecidableEq

/-- The registered trainer mapping _MODELS of experiment_utils.py; only the
keys matter here, the values are the external training entry points. -/
def registeredModels : List String := ["a2c", "deepq"]

/-- Modelled from the spec: find_and_reserve_client of rosalind/db/queries.py
is not under the embedded tree; section 4.1 specifies that it atomically
selects one AVAILABLE entry, marks it RESERVED with the experiment as
holder, and returns its address, or returns nothing when no entry is
available. -/
def reserveFirstClient (cs : List Client) (eid : Nat) : Option String × List Client :=
  match cs with
  | [] => (none, [])
  | c :: rest =>
    if c.status = ClientStatus.AVALIABLE then
      (some c.address,
       { c with status := ClientStatus.RESERVED, currentExperiment := some eid } :: rest)
    else
      let r := reserveFirstClient rest eid
      (r.1, c :: r.2)

def find_and_reserve_client (db : DB) (eid : Nat) : Option String × DB :=
  let r := reserveFirstClient db.clients eid
  (r.1, { db with clients := r.2 })

/-- Modelled from the spec: update_experiment of rosalind/db/queries.py
performs a partial update of the record with the given id and fails with
NotFound when the id is absent (section 4.2). -/
def update_experiment (db : DB) (eid : Nat) (f : Experiment → Experiment) :
    Except PyError DB :=
  if db.experiments.any (fun e => e.id = eid) then
    Except.ok { db with
      experiments := db.experiments.map (fun e => if e.id = eid then f e else e) }
  else
    Except.error PyError.notFound

/-- Modelled from the spec: update_client of rosalind/db/queries.py performs
a partial update of the pool entry with the given address and fails with
NotFound when the address is absent (section 6). -/
def update_client (db : DB) (addr : String) (f : Client → Client) :
    Except PyError DB :=
  if db.clients.any (fun c => c.address = addr) then
    Except.ok { db with
      clients := db.clients.map (fun c => if c.address = addr then f c else c) }
  else
    Except.error PyError.notFound

/-- Modelled from the spec: create_experiment of rosalind/db/queries.py
persists a new record in PENDING and fails with DuplicateKey when the id
already exists (sections 4.2 and 4.5). -/
def create_experiment (db : DB) (eid gid : Nat) (model envId : String) (owner : Nat)
    (totalTimesteps : Int) (logDir : String) (modelParams : List (String × PyVal)) :
    Except PyError DB :=
  if db.experiments.any (fun e => e.id = eid) then
    Except.error PyError.duplicateKey
  else
    Except.ok { db with experiments := db.experiments ++
      [{ id := eid, groupId := gid, model := model, envId := envId, owner := owner,
         totalTimesteps := totalTimesteps, logDir := logDir, modelParams := modelParams,
         status := ExperimentStatus.PENDING, pid := none, endDateSet := false }] }

/-- Modelled from the spec: get_experiment of rosalind/db/queries.py is a
read accessor by id. -/
def get_experiment (db : DB) (eid : Nat) : Option Experiment :=
  db.experiments.find? (fun e => e.id = eid)

/-- Modelled from the spec: get_experiments_by_group_id of
rosalind/db/queries.py returns all experiments sharing the group id in
insertion order (section 4.2). -/
def get_experiments_by_group_id (db : DB) (gid : Nat) : List Experiment :=
  db.experiments.filter (fun e => e.groupId = gid)

/-! ### Embedding of train_model (experiment_utils.py lines 78 to 165) -/

/-- Leading text of the failure notification built at lines 146 to 148 of
experiment_utils.py: the two adjacent string literals concatenate with no
separator between the exclamation mark and the word Traceback. -/
def failMsgPre (eid : Nat) : String :=
  "The experiment with id " ++ toString eid ++ " failed!Traceback: \n "

/-- Text of the failure notification: the leading text followed by the
formatted traceback. -/
def failMsg (eid : Nat) (tb : String) : String :=
  failMsgPre eid ++ tb

/-- Text of the success notification at line 158 of experiment_utils.py. -/
def doneMsg (eid : Nat) : String :=
  "The experiment with id " ++ toString eid ++ " completed!"

/-- Abstract rendering of traceback.format_exc for an exception raised by a
database call; the exact text is irrelevant, only that the message carries
it. -/
def pyTraceback : PyError → String
  | PyError.indexError => "IndexError"
  | PyError.typeError => "TypeError"
  | PyError.valueError => "ValueError"
  | PyError.keyError m => "KeyError: " ++ m
  | PyError.nameError => "NameError"
  | PyError.notFound => "NotFound"
  | PyError.duplicateKey => "DuplicateKey"
  | PyError.osError tb => tb

/-- Outcome of the external training entry point (model_runner), which is an
external collaborator: it either returns normally or raises with a captured
traceback text. -/
inductive RunOutcome : Type where
  | success
  | failure (tb : String)
deriving DecidableEq

/-- How a run of train_model terminates: normal return, a Python exception
from the orchestration code itself, the re-raised training exception, or
divergence of the unbounded client-acquisition wait. -/
inductive TrainExit : Type where
  | normal
  | exc (e : PyError)
  | trainerExc (tb : String)
  | hang
deriving DecidableEq

structure TrainRun : Type where
  db : DB
  trace : List Event
  exit : TrainExit
deriving DecidableEq

/-- Splitting a character list at every occurrence of a separator, the
semantics of the Python str.split method with an explicit separator. -/
def splitOnCharAux (sep : Char) : List Char → List Char → List (List Char)
  | [], acc => [acc.reverse]
  | c :: rest, acc =>
    if c = sep then acc.reverse :: splitOnCharAux sep rest []
    else splitOnCharAux sep rest (c :: acc)

def splitOnChar (sep : Char) (s : String) : List String :=
  (splitOnCharAux sep s.toList []).map List.asString

/-- Decimal digit accumulator for the Python int constructor on strings. -/
def parseDigits : List Char → Option Nat → Option Nat
  | [], acc => acc
  | c :: rest, acc =>
    if c.isDigit then parseDigits rest (some ((acc.getD 0) * 10 + (c.toNat - 48)))
    else none

/-- Semantics of int(s) for a decimal string, raising ValueError (here:
none) on anything that is not an optionally signed run of digits. -/
def pyIntOfString (s : String) : Option Int :=
  match s.toList with
  | [] => none
  | c :: rest =>
    if c = Char.ofNat 45 then (parseDigits rest none).map (fun n => -(n : Int))
    else (parseDigits (c :: rest) none).map (fun n => (n : Int))

/-- Embedding of lines 112 to 113 of experiment_utils.py, evaluated with the
just-returned address and the current client_pool list:

    client = client_address.split(":")
    client = (client_pool[0], int(client_pool[1]))

The split result is computed and immediately discarded; the pair is built by
indexing the client_pool list itself, so the expression raises IndexError
while the pool holds fewer than two entries and TypeError otherwise, because
int() is applied to a tuple. -/
def clientPairExpr (client_pool : List PyVal) (client_address : String) :
    Except PyError PyVal :=
  let _split := splitOnChar (Char.ofNat 58) client_address
  match client_pool.get? 0 with
  | none => Except.error PyError.indexError
  | some a =>
    match client_pool.get? 1 with
    | none => Except.error PyError.indexError
    | some b =>
      match b with
      | PyVal.vInt n => Except.ok (PyVal.vPair a (PyVal.vInt n))
      | PyVal.vStr s =>
        match pyIntOfString s with
        | some n => Except.ok (PyVal.vPair a (PyVal.vInt n))
        | none => Except.error PyError.valueError
      | PyVal.vPair _ _ => Except.error PyError.typeError

/-- Modelled from the spec: section 9 states the intended behaviour of the
address extraction, namely that the host and port are parsed directly from
the reservation result of the form host:port. -/
def specParseClient (addr : String) : Option (String × Int) :=
  match splitOnChar (Char.ofNat 58) addr with
  | [h, p] =>
    match pyIntOfString p with
    | some n => some (h, n)
    | none => none
  | _ => none

/-- Embedding of the acquisition loop at lines 103 to 108: poll
find_and_reserve_client, then log and sleep ten seconds, until an address is
obtained.  The loop is unbounded in the source; fuel bounds the number of
polls in the model, and exhaustion represents divergence of the wait. -/
def clientWaitLoop (eid : Nat) : Nat → DB → DB × List Event × Option String
  | 0, db => (db, [], none)
  | fuel + 1, db =>
    let r := find_and_reserve_client db eid
    match r.1 with
    | some a => (r.2, [Event.clientReserved a, Event.sleep 10], some a)
    | none =>
      let rest := clientWaitLoop eid fuel r.2
      (rest.1, Event.sleep 10 :: rest.2.1, rest.2.2)

/-- Result of the reservation phase (the for loop at lines 101 to 114),
which runs before the try block: it either finishes with the accumulated
client_pool and the last bound client_address, raises while extracting the
pair, or hangs waiting for a client. -/
inductive ResvResult : Type where
  | finished (db : DB) (tr : List Event) (pool : List PyVal) (lastAddr : Option String)
  | raised (db : DB) (tr : List Event) (e : PyError)
  | hung (db : DB) (tr : List Event)
deriving DecidableEq

def reservePhase (eid : Nat) (fuel : Nat) :
    Nat → DB → List PyVal → Option String → ResvResult
  | 0, db, pool, lastAddr => ResvResult.finished db [] pool lastAddr
  | n + 1, db, pool, _ =>
    let w := clientWaitLoop eid fuel db
    match w.2.2 with
    | none => ResvResult.hung w.1 w.2.1
    | some addr =>
      match clientPairExpr pool addr with
      | Except.error e => ResvResult.raised w.1 w.2.1 e
      | Except.ok pair =>
        match reservePhase eid fuel n w.1 (pool ++ [pair]) (some addr) with
        | ResvResult.finished db2 tr2 pool2 last2 =>
          ResvResult.finished db2 (w.2.1 ++ tr2) pool2 last2
        | ResvResult.raised db2 tr2 e => ResvResult.raised db2 (w.2.1 ++ tr2) e
        | ResvResult.hung db2 tr2 => ResvResult.hung db2 (w.2.1 ++ tr2)

/-- Pending exception inside the try statement of train_model. -/
inductive Pending : Type where
  | nothing
  | py (e : PyError)
  | trainer (tb : String)
deriving DecidableEq

def pendingTb : Pending → String
  | Pending.nothing => ""
  | Pending.py e => pyTraceback e
  | Pending.trainer tb => tb

def pendingExit : Pending → TrainExit
  | Pending.nothing => TrainExit.normal
  | Pending.py e => TrainExit.exc e
  | Pending.trainer tb => TrainExit.trainerExc tb

/-- Embedding of the finally clause at lines 159 to 165: stop and join the
monitor, then release the client bound to client_address.  When num_envs was
zero the name client_address was never bound, so the release raises
NameError, replacing any pending exception; an exception from update_client
likewise replaces the pending one. -/
def releaseFinally (db : DB) (tr : List Event) (lastAddr : Option String)
    (pending : Pending) : TrainRun :=
  let tr2 := tr ++ [Event.monitorStop]
  match lastAddr with
  | none => { db := db, trace := tr2, exit := TrainExit.exc PyError.nameError }
  | some addr =>
    match update_client db addr (fun c =>
        { c with status := ClientStatus.AVALIABLE, currentExperiment := none }) with
    | Except.ok db2 =>
      { db := db2, trace := tr2 ++ [Event.clientReleased addr], exit := pendingExit pending }
    | Except.error e => { db := db, trace := tr2, exit := TrainExit.exc e }

/-- Embedding of the except clause at lines 132 to 149: stop and join the
monitor, set the experiment FAILED with an end date, log, and send the owner
a message carrying the formatted traceback, then re-raise.  An exception
from the FAILED update itself propagates instead and skips the message. -/
def exceptBranch (db : DB) (tr : List Event) (exp : Experiment) (orig : Pending) :
    DB × List Event × Pending :=
  let tr2 := tr ++ [Event.monitorStop]
  match update_experiment db exp.id (fun e =>
      { e with status := ExperimentStatus.FAILED, endDateSet := true }) with
  | Except.error e2 => (db, tr2, Pending.py e2)
  | Except.ok db2 =>
    (db2,
     tr2 ++ [Event.statusWrite exp.id ExperimentStatus.FAILED, Event.endDateWrite exp.id,
             Event.messageSent exp.owner (failMsg exp.id (pendingTb orig))],
     orig)

/-- Embedding of the try, except, else and finally statement of train_model
(lines 117 to 165), entered after the reservation phase: set RUNNING, start
the monitor, run the training entry point, then dispatch on its outcome. -/
def trainBody (db : DB) (exp : Experiment) (outcome : RunOutcome)
    (lastAddr : Option String) : TrainRun :=
  match update_experiment db exp.id (fun e => { e with status := ExperimentStatus.RUNNING }) with
  | Except.error e1 =>
    let r := exceptBranch db [] exp (Pending.py e1)
    releaseFinally r.1 r.2.1 lastAddr r.2.2
  | Except.ok db1 =>
    let tr1 := [Event.statusWrite exp.id ExperimentStatus.RUNNING, Event.monitorStart]
    match outcome with
    | RunOutcome.failure tb =>
      let r := exceptBranch db1 tr1 exp (Pending.trainer tb)
      releaseFinally r.1 r.2.1 lastAddr r.2.2
    | RunOutcome.success =>
      match update_experiment db1 exp.id (fun e =>
          { e with status := ExperimentStatus.COMPLETED, endDateSet := true }) with
      | Except.error e3 => releaseFinally db1 tr1 lastAddr (Pending.py e3)
      | Except.ok db2 =>
        releaseFinally db2
          (tr1 ++ [Event.statusWrite exp.id ExperimentStatus.COMPLETED,
                   Event.endDateWrite exp.id,
                   Event.messageSent exp.owner (doneMsg exp.id)])
          lastAddr Pending.nothing

/-- Embedding of train_model (lines 78 to 165).  The logger and the fresh
database connection of lines 86 to 92 have no modelled effect; the monitor
is represented by its start and stop events; the training entry point is
the outcome parameter.  An exception raised during the reservation phase
propagates before the try statement is entered, so the finally clause does
not run on that path. -/
def train_model (db : DB) (exp : Experiment) (outcome : RunOutcome)
    (num_envs : Nat) (fuel : Nat) : TrainRun :=
  match reservePhase exp.id fuel num_envs db [] none with
  | ResvResult.raised db2 tr2 e => { db := db2, trace := tr2, exit := TrainExit.exc e }
  | ResvResult.hung db2 tr2 => { db := db2, trace := tr2, exit := TrainExit.hang }
  | ResvResult.finished db2 tr2 _pool lastAddr =>
    let body := trainBody db2 exp outcome lastAddr
    { db := body.db, trace := tr2 ++ body.trace, exit := body.exit }

/-! ### Embedding of the facade workflows (experiment_utils.py lines 168 to 299) -/

/-- Outcome of Process(...).start() for the spawned supervisor process, an
operating-system effect outside the embedded code. -/
inductive SpawnOutcome : Type where
  | started (pid : Nat)
  | failed (tb : String)
deriving DecidableEq

structure FacadeResult : Type where
  db : DB
  trace : List Event
  result : Except PyError Experiment

/-- Embedding of build_log_dir (lines 26 to 37) as the path it returns; the
directory creation side effects play no part in the embedded behaviour. -/
def build_log_dir (eid : Nat) : String :=
  "logs/" ++ toString eid

/-- Embedding of run_new_single_experiment_with_monitoring (lines 168 to
218).  The fresh uuids are parameters; the trainer lookup happens first and
an unknown model raises KeyError before any state is touched.  The value
stored in the total_timesteps column is model_params applied at the key
total_timesteps, raising KeyError when absent; a non-integer value there is
modelled as the stored integer being taken from a vInt only. -/
def run_new_single_experiment_with_monitoring (db : DB) (user : Nat) (model : String)
    (envId : String) (modelParams : List (String × PyVal)) (groupId : Option Nat)
    (freshEid freshGid : Nat) (spawn : SpawnOutcome) : FacadeResult :=
  if registeredModels.contains model = false then
    { db := db, trace := [],
      result := Except.error (PyError.keyError
        ("The model " ++ model ++ " has not been implemented.")) }
  else
    let eid := freshEid
    let gid := match groupId with
      | some g => g
      | none => freshGid
    let logDir := build_log_dir eid
    match getAssoc modelParams "total_timesteps" with
    | none => { db := db, trace := [],
                result := Except.error (PyError.keyError "total_timesteps") }
    | some (PyVal.vStr _) => { db := db, trace := [], result := Except.error PyError.typeError }
    | some (PyVal.vPair _ _) => { db := db, trace := [], result := Except.error PyError.typeError }
    | some (PyVal.vInt tt) =>
      match create_experiment db eid gid model envId user tt logDir modelParams with
      | Except.error e => { db := db, trace := [], result := Except.error e }
      | Except.ok db1 =>
        let tr1 := [Event.statusWrite eid ExperimentStatus.PENDING]
        match get_experiment db1 eid with
        | none => { db := db1, trace := tr1, result := Except.error PyError.notFound }
        | some exp =>
          match spawn with
          | SpawnOutcome.failed tb =>
            { db := db1,
              trace := tr1 ++ [Event.messageSent exp.owner (failMsg exp.id tb)],
              result := Except.error (PyError.osError tb) }
          | SpawnOutcome.started pid =>
            match update_experiment db1 eid (fun e => { e with pid := some pid }) with
            | Except.error e => { db := db1, trace := tr1 ++ [Event.processStart eid],
                                  result := Except.error e }
            | Except.ok db2 =>
              { db := db2,
                trace := tr1 ++ [Event.processStart eid, Event.pidWrite eid],
                result := Except.ok exp }

/-- Embedding of continue_experiement_with_monitoring (lines 220 to 277).
The trace records, in source order: the call itself, the checkpoint of the
log directory, the writes of load_path and total_timesteps into the
in-memory parameter dictionary, and the persisted partial update.  The
persisted total_timesteps is the total_timesteps attribute of the passed
object plus the argument; the owner notified on a spawn failure is the
owner attribute of the passed object, which the preceding update does not
refresh. -/
def continue_experiement_with_monitoring (db : DB) (userId : Nat) (exp : Experiment)
    (total_timesteps : Int) (spawn : SpawnOutcome) : FacadeResult :=
  let tr0 := [Event.relaunchAttempt exp.id]
  if registeredModels.contains exp.model = false then
    { db := db, trace := tr0,
      result := Except.error (PyError.keyError
        ("The model " ++ exp.model ++ " has not been implemented.")) }
  else
    let logDir := build_log_dir exp.id
    let tr1 := tr0 ++ [Event.checkpointTaken logDir]
    let params1 := setAssoc exp.modelParams "load_path" (PyVal.vStr (logDir ++ "/model.pkl"))
    let tr2 := tr1 ++ [Event.paramSet "load_path"]
    let params2 := setAssoc params1 "total_timesteps" (PyVal.vInt total_timesteps)
    let tr3 := tr2 ++ [Event.paramSet "total_timesteps"]
    match update_experiment db exp.id (fun e =>
        { e with totalTimesteps := exp.totalTimesteps + total_timesteps,
                 status := ExperimentStatus.PENDING,
                 modelParams := params2,
                 owner := userId }) with
    | Except.error e => { db := db, trace := tr3, result := Except.error e }
    | Except.ok db1 =>
      let tr4 := tr3 ++ [Event.statusWrite exp.id ExperimentStatus.PENDING,
                         Event.paramsPersist exp.id]
      match spawn with
      | SpawnOutcome.failed tb =>
        { db := db1,
          trace := tr4 ++ [Event.messageSent exp.owner (failMsg exp.id tb)],
          result := Except.error (PyError.osError tb) }
      | SpawnOutcome.started pid =>
        match update_experiment db1 exp.id (fun e => { e with pid := some pid }) with
        | Except.error e => { db := db1, trace := tr4 ++ [Event.processStart exp.id],
                              result := Except.error e }
        | Except.ok db2 =>
          { db := db2,
            trace := tr4 ++ [Event.processStart exp.id, Event.pidWrite exp.id],
            result := Except.ok exp }

/-- Embedding of the loop body of continue_experiment_group (lines 295 to
299): relaunch each member in order; an exception from one call propagates
out of the plain for loop, abandoning the rest of the list. -/
def continueGroupList (userId : Nat) (tt : Int) (spawn : Nat → SpawnOutcome) :
    DB → List Experiment → DB × List Event × Option PyError
  | db, [] => (db, [], none)
  | db, e :: rest =>
    let r := continue_experiement_with_monitoring db userId e tt (spawn e.id)
    match r.result with
    | Except.error err => (r.db, r.trace, some err)
    | Except.ok _ =>
      let rec2 := continueGroupList userId tt spawn r.db rest
      (rec2.1, r.trace ++ rec2.2.1, rec2.2.2)

/-- Embedding of continue_experiment_group (lines 279 to 299): fetch the
members of the group in insertion order and relaunch each in turn. -/
def continue_experiment_group (db : DB) (userId : Nat) (gid : Nat) (tt : Int)
    (spawn : Nat → SpawnOutcome) : DB × List Event × Option PyError :=
  continueGroupList userId tt spawn db (get_experiments_by_group_id db gid)

/-- Experiment ids whose relaunch was attempted, in order. -/
def attemptsOf (tr : List Event) : List Nat :=
  tr.filterMap (fun ev =>
    match ev with
    | Event.relaunchAttempt eid => some eid
    | _ => none)

/-- Owner messages recorded in a trace, in order. -/
def messagesOf (tr : List Event) : List (Nat × String) :=
  tr.filterMap (fun ev =>
    match ev with
    | Event.messageSent ow t => some (ow, t)
    | _ => none)

/-- Terminal status writes (COMPLETED or FAILED) for an experiment id. -/
def terminalsOf (eid : Nat) (tr : List Event) : List ExperimentStatus :=
  tr.filterMap (fun ev =>
    match ev with
    | Event.statusWrite e s =>
      if e = eid ∧ (s = ExperimentStatus.COMPLETED ∨ s = ExperimentStatus.FAILED) then
        some s
      else
        none
    | _ => none)

/-- Status writes for an experiment id, in order. -/
def statusWritesOf (eid : Nat) (tr : List Event) : List ExperimentStatus :=
  tr.filterMap (fun ev =>
    match ev with
    | Event.statusWrite e s => if e = eid then some s else none
    | _ => none)

/-! ### Embedding of MalmoEnvironment (common/malmo/malmo_env.py)

The agent host is an external collaborator; the world states it returns are
oracle parameters.  Images are opaque payloads; observation texts are kept
as already-parsed opaque strings (json.loads is applied to well-formed Malmo
observations); mission-control messages are kept as already-parsed tag and
status records, since the step code only logs them. -/

structure MCMessage : Type where
  tag : String
  statuses : List String
deriving DecidableEq

structure WorldState : Type where
  is_mission_running : Bool
  has_mission_begun : Bool
  rewards : List Int
  observations : List String
  number_of_observations_since_last_state : Nat
  number_of_video_frames_since_last_state : Nat
  number_of_rewards_since_last_state : Nat
  video_frames : List Nat
  errors : List String
  mission_control_messages : List MCMessage
deriving DecidableEq

/-- Action-space shapes produced by _create_action_space; the command names
for each space are stored separately in action_names. -/
inductive ActSpace : Type where
  | discrete (n : Nat)
  | box (n : Nat)
  | multidiscrete (n : Nat)
deriving DecidableEq

/-- A Python action value handed to step: an integer index for a Discrete
space, a vector of numeric components for Box or MultiDiscrete spaces, or a
tuple of per-space actions.  Numeric components are modelled as integers;
their textual rendering is all the step code uses. -/
inductive GymAction : Type where
  | idx (i : Nat)
  | vec (vs : List Int)
  | tup (elems : List GymAction)

structure MalmoEnv : Type where
  num_actions : Nat
  last_image : Nat
  previous_observations : Option String
  replay_buffer : List Nat
  parse_world_state : Bool
  action_spaces : List ActSpace
  action_names : List (List String)
  skip_steps : Nat
deriving DecidableEq

inductive MalmoError : Type where
  | assertionError
  | indexError
  | typeError
deriving DecidableEq

/-- Commands produced for one space, name list and action (the loop body of
_take_action, lines 313 to 326): a Discrete space indexes the name list, a
Box or MultiDiscrete space zips names with components and renders each as
name space value.  The result is the command list sent, together with an
error when indexing fails or a non-iterable action is zipped. -/
def commandsForSpace (spc : ActSpace) (cmds : List String) (act : GymAction) :
    List String × Option MalmoError :=
  match spc with
  | ActSpace.discrete _ =>
    match act with
    | GymAction.idx i =>
      match cmds.get? i with
      | some c => ([c], none)
      | none => ([], some MalmoError.indexError)
    | _ => ([], some MalmoError.typeError)
  | ActSpace.box _ =>
    match act with
    | GymAction.vec vs => ((cmds.zip vs).map (fun p => p.1 ++ " " ++ toString p.2), none)
    | _ => ([], some MalmoError.typeError)
  | ActSpace.multidiscrete _ =>
    match act with
    | GymAction.vec vs => ((cmds.zip vs).map (fun p => p.1 ++ " " ++ toString p.2), none)
    | _ => ([], some MalmoError.typeError)

/-- Embedding of _take_action (lines 307 to 326) after the initial wrap:
zip action spaces, name lists and actions and send the commands of each
triple in order; commands already sent stay sent when a later triple
raises. -/
def take_action_zipped :
    List (ActSpace × List String × GymAction) → List String × Option MalmoError
  | [] => ([], none)
  | (spc, cmds, act) :: rest =>
    let r := commandsForSpace spc cmds act
    match r.2 with
    | some e => (r.1, some e)
    | none =>
      let r2 := take_action_zipped rest
      (r.1 ++ r2.1, r2.2)

/-- Embedding of the wrap at lines 309 to 310 of _take_action: with a single
action space the action is wrapped in a singleton list; otherwise the action
must itself be a tuple to be zipped against the spaces. -/
def take_action (spaces : List ActSpace) (names : List (List String)) (act : GymAction) :
    List String × Option MalmoError :=
  let actions : Except MalmoError (List GymAction) :=
    if spaces.length = 1 then Except.ok [act]
    else
      match act with
      | GymAction.tup elems => Except.ok elems
      | _ => Except.error MalmoError.typeError
  match actions with
  | Except.error e => ([], some e)
  | Except.ok acts => take_action_zipped ((spaces.zip names).zip acts |>.map
      (fun p => (p.1.1, p.1.2, p.2)))

/-- Embedding of _get_observation (lines 377 to 396): with new observations
while the mission runs, assert a single pending observation, record and
return it; otherwise return the previous one. -/
def get_observation (env : MalmoEnv) (ws : WorldState) :
    Except MalmoError (Option String × MalmoEnv) :=
  if ws.number_of_observations_since_last_state > 0 ∧ ws.is_mission_running then
    if h : ws.observations.length = 1 then
      let obs := ws.observations.getLast (by
        intro hnil
        rw [hnil] at h
        simp at h)
      Except.ok (some obs, { env with previous_observations := some obs })
    else
      Except.error MalmoError.assertionError
  else
    Except.ok (env.previous_observations, env)

/-- Embedding of _get_video_frame (lines 361 to 375): with new frames,
assert exactly one frame, take it and remember it; otherwise reuse the last
image. -/
def get_video_frame (env : MalmoEnv) (ws : WorldState) :
    Except MalmoError (Nat × MalmoEnv) :=
  if ws.number_of_video_frames_since_last_state > 0 then
    if h : ws.video_frames.length = 1 then
      let img := ws.video_frames.getLast (by
        intro hnil
        rw [hnil] at h
        simp at h)
      Except.ok (img, { env with last_image := img })
    else
      Except.error MalmoError.assertionError
  else
    Except.ok (env.last_image, env)

/-- Embedding of _update_replay_buffer_and_get_observation (lines 398 to
409): push the new image at the front, drop the oldest, and return the
stacked buffer. -/
def update_replay_buffer (env : MalmoEnv) (img : Nat) : List Nat × MalmoEnv :=
  let buf := (img :: env.replay_buffer).dropLast
  (buf, { env with replay_buffer := buf })

/-- Observation returned by step: the stacked frame buffer, or the parsed
world state of a subclass parser. -/
inductive StepObs : Type where
  | frames (imgs : List Nat)
  | parsed (p : Nat)
deriving DecidableEq

structure StepInfo : Type where
  has_mission_begun : Bool
  is_mission_running : Bool
  number_of_video_frames_since_last_state : Nat
  number_of_rewards_since_last_state : Nat
  number_of_observations_since_last_state : Nat
  mission_control_messages : List MCMessage
  observation : Option String
deriving DecidableEq

structure StepReturn : Type where
  obs : StepObs
  reward : Int
  done : Bool
  info : StepInfo
deriving DecidableEq

/-- Embedding of MalmoEnvironment.step (lines 411 to 454).  wsPeek is the
world state returned by the initial peekWorldState; wsAfter is the state
_get_world_state returns after a taken action (an oracle for the agent
host); parser is the subclass hook _world_state_parser used when
parse_world_state is set.  The returned triple carries the step result or
the raised error, the updated environment, and the commands sent to the
agent host in order. -/
def step (env : MalmoEnv) (wsPeek wsAfter : WorldState) (act : GymAction)
    (parser : WorldState → Nat × Int) :
    Except MalmoError StepReturn × MalmoEnv × List String :=
  let taken :=
    if wsPeek.is_mission_running then
      let r := take_action env.action_spaces env.action_names act
      match r.2 with
      | some e => Except.error (e, r.1)
      | none =>
        Except.ok ({ env with num_actions := env.num_actions + 1 }, wsAfter, r.1)
    else
      Except.ok (env, wsPeek, [])
  match taken with
  | Except.error (e, sent) => (Except.error e, env, sent)
  | Except.ok (env1, ws, sent) =>
    let done := !ws.is_mission_running
    match get_observation env1 ws with
    | Except.error e => (Except.error e, env1, sent)
    | Except.ok (obsText, env2) =>
      let info : StepInfo :=
        { has_mission_begun := ws.has_mission_begun,
          is_mission_running := ws.is_mission_running,
          number_of_video_frames_since_last_state := ws.number_of_video_frames_since_last_state,
          number_of_rewards_since_last_state := ws.number_of_rewards_since_last_state,
          number_of_observations_since_last_state := ws.number_of_observations_since_last_state,
          mission_control_messages := ws.mission_control_messages,
          observation := obsText }
      if env2.parse_world_state then
        let pr := parser ws
        (Except.ok { obs := StepObs.parsed pr.1, reward := pr.2, done := done, info := info },
         env2, sent)
      else
        let reward := ws.rewards.foldl (fun a r => a + r) 0
        match get_video_frame env2 ws with
        | Except.error e => (Except.error e, env2, sent)
        | Except.ok (img, env3) =>
          let r := update_replay_buffer env3 img
          (Except.ok { obs := StepObs.frames r.1, reward := reward, done := done, info := info },
           r.2, sent)

/-- Embedding of the mission-startup loop of MalmoEnvironment.reset (lines
477 to 492).  fail gives the outcome of each startMission attempt in order;
rem counts the iterations the for statement has left and retry is the loop
variable.  The result is the number of attempts made, the number of sleeps
between failed attempts, and whether the final RuntimeError was re-raised. -/
def startLoopAux (fail : Nat → Bool) (maxRetries : Nat) : Nat → Nat → Nat × Nat × Bool
  | _, 0 => (0, 0, false)
  | retry, rem + 1 =>
    if fail retry then
      if retry = maxRetries then (1, 0, true)
      else
        let r := startLoopAux fail maxRetries (retry + 1) rem
        (r.1 + 1, r.2.1 + 1, r.2.2)
    else (1, 0, false)

/-- Mission startup as performed by reset: the for statement ranges over
retry values 0 to max_retries inclusive. -/
def missionStartup (fail : Nat → Bool) (maxRetries : Nat) : Nat × Nat × Bool :=
  startLoopAux fail maxRetries 0 (maxRetries + 1)

/-! ### Concrete states used by the scenario theorems -/

def sampleClient : Client :=
  { address := "localhost:10000", status := ClientStatus.AVALIABLE, currentExperiment := none }

def sampleParams : List (String × PyVal) := [("total_timesteps", PyVal.vInt 1000)]

def sampleExp : Experiment :=
  { id := 7, groupId := 9, model := "a2c", envId := "MinecraftBasic-v0", owner := 3,
    totalTimesteps := 1000, logDir := "logs/7", modelParams := sampleParams,
    status := ExperimentStatus.PENDING, pid := none, endDateSet := false }

def sampleDB : DB := { experiments := [sampleExp], clients := [sampleClient] }

/-- The status sequences the specification permits an experiment to traverse
over its lifetime, transcribed from the property under examination: one
complete PENDING RUNNING COMPLETED or PENDING RUNNING FAILED cycle, or a
concatenation of several such cycles for resumed experiments. -/
def specStatusSeq : List ExperimentStatus → Bool
  | [ExperimentStatus.PENDING, ExperimentStatus.RUNNING, ExperimentStatus.COMPLETED] => true
  | [ExperimentStatus.PENDING, ExperimentStatus.RUNNING, ExperimentStatus.FAILED] => true
  | ExperimentStatus.PENDING :: ExperimentStatus.RUNNING :: ExperimentStatus.COMPLETED
      :: rest => specStatusSeq rest
  | ExperimentStatus.PENDING :: ExperimentStatus.RUNNING :: ExperimentStatus.FAILED
      :: rest => specStatusSeq rest
  | _ => false

def c4Facade : FacadeResult :=
  run_new_single_experiment_with_monitoring
    { experiments := [], clients := [sampleClient] }
    3 "a2c" "MinecraftBasic-v0" sampleParams none 7 9 (SpawnOutcome.started 41)

def c4Exp : Experiment :=
  { id := 7, groupId := 9, model := "a2c", envId := "MinecraftBasic-v0", owner := 3,
    totalTimesteps := 1000, logDir := "logs/7", modelParams := sampleParams,
    status := ExperimentStatus.PENDING, pid := none, endDateSet := false }

def c10Env : MalmoEnv :=
  { num_actions := 5, last_image := 2, previous_observations := some "obs",
    replay_buffer := [2, 2, 2], parse_world_state := false,
    action_spaces := [ActSpace.discrete 2], action_names := [["move 1", "move -1"]],
    skip_steps := 0 }

def c10WS : WorldState :=
  { is_mission_running := false, has_mission_begun := true, rewards := [4],
    observations := [], number_of_observations_since_last_state := 0,
    number_of_video_frames_since_last_state := 0,
    number_of_rewards_since_last_state := 1, video_frames := [], errors := [],
    mission_control_messages := [{ tag := "MissionEnded", statuses := ["done"] }] }

def c6DB : DB := { experiments := [{ sampleExp with status := ExperimentStatus.COMPLETED }],
                   clients := [sampleClient] }

/-- C2 counterexample state: a group of three experiments whose second
member has the since-deregistered model kind foo. -/
def c2DB : DB :=
  { experiments :=
      [{ sampleExp with id := 1, groupId := 11 },
       { sampleExp with id := 2, groupId := 11, model := "foo" },
       { sampleExp with id := 3, groupId := 11 }],
    clients := [sampleClient] }

def c7Dir : List (String × FsEntry) :=
  [("train.log", FsEntry.file "T"), ("model.pkl", FsEntry.file "M"),
   ("sub", FsEntry.dir [("x", "1")])]

def c7Dir1 : List (String × FsEntry) :=
  [("train.log", FsEntry.file "T"), ("model.pkl", FsEntry.file "M"),
   ("sub", FsEntry.dir [("x", "1")]),
   ("checkpoint", FsEntry.dir [("train.log", "T"), ("model.pkl", "M")])]

/-- Traceback text the training entry point raises with, empty on success. -/
def outcomeTb : RunOutcome → String
  | RunOutcome.success => ""
  | RunOutcome.failure tb => tb

/-- Expected owner message for a terminal status write of a run. -/
def terminalMsg (exp : Experiment) (outcome : RunOutcome) :
    ExperimentStatus → Nat × String
  | ExperimentStatus.FAILED => (exp.owner, failMsg exp.id (outcomeTb outcome))
  | _ => (exp.owner, doneMsg exp.id)

/-- Events the reservation phase can record: reservations and sleeps. -/
def reserveEvent : Event → Prop
  | Event.clientReserved _ => True
  | Event.sleep _ => True
  | _ => False

def resvTrace : ResvResult → List Event
  | ResvResult.finished _ tr _ _ => tr
  | ResvResult.raised _ tr _ => tr
  | ResvResult.hung _ tr => tr

theorem getAssoc_setAssoc_self {α : Type} (l : List (String × α)) (n : String) (v : α) :
    getAssoc (setAssoc l n v) n = some v := by
  induction l with
  | nil => simp [setAssoc, getAssoc]
  | cons hd tl ih =>
    obtain ⟨k, w⟩ := hd
    by_cases hk : k = n
    · simp [setAssoc, getAssoc, hk]
    · simp [setAssoc, getAssoc, hk, ih]

theorem setAssoc_eq_of_getAssoc {α : Type} (l : List (String × α)) (n : String) (v : α)
    (h : getAssoc l n = some v) : setAssoc l n v = l := by
  induction l with
  | nil => simp [getAssoc] at h
  | cons hd tl ih =>
    obtain ⟨k, w⟩ := hd
    by_cases hk : k = n
    · subst hk
      simp [getAssoc] at h
      simp [setAssoc, h]
    · simp [getAssoc, hk] at h
      simp [setAssoc, hk, ih h]

theorem mem_setAssoc {α : Type} (l : List (String × α)) (n : String) (v : α)
    (x : String × α) (hx : x ∈ setAssoc l n v) : x ∈ l ∨ x = (n, v) := by
  induction l with
  | nil =>
    right
    simpa [setAssoc] using hx
  | cons hd tl ih =>
    obtain ⟨k, w⟩ := hd
    by_cases hk : k = n
    · subst hk
      simp only [setAssoc, if_pos rfl] at hx
      rcases List.mem_cons.mp hx with h | h
      · right; exact h
      · left; exact List.mem_cons_of_mem _ h
    · simp only [setAssoc, if_neg hk] at hx
      rcases List.mem_cons.mp hx with h | h
      · left; rw [h]; exact List.mem_cons_self _ _
      · rcases ih h with h2 | h2
        · left; exact List.mem_cons_of_mem _ h2
        · right; exact h2

theorem mem_setAssoc_of_mem_of_ne {α : Type} (l : List (String × α)) (n : String) (v : α)
    (k : String) (w : α) (hk : k ≠ n) (hmem : (k, w) ∈ l) : (k, w) ∈ setAssoc l n v := by
  induction l with
  | nil => simp at hmem
  | cons hd tl ih =>
    obtain ⟨k0, w0⟩ := hd
    by_cases h0 : k0 = n
    · subst h0
      rcases List.mem_cons.mp hmem with h | h
      · exact absurd (congrArg Prod.fst h) hk
      · simp only [setAssoc, if_pos rfl, List.mem_cons]
        right; exact h
    · simp only [setAssoc, if_neg h0, List.mem_cons]
      rcases List.mem_cons.mp hmem with h | h
      · left; exact h
      · right; exact ih h

theorem assocKeys_setAssoc {α : Type} (l : List (String × α)) (n : String) (v : α) :
    assocKeys (setAssoc l n v) =
      if n ∈ assocKeys l then assocKeys l else assocKeys l ++ [n] := by
  induction l with
  | nil => simp [setAssoc, assocKeys]
  | cons hd tl ih =>
    obtain ⟨k, w⟩ := hd
    by_cases hk : k = n
    · subst hk
      simp [setAssoc, assocKeys]
    · simp only [setAssoc, if_neg hk, assocKeys, List.map_cons] at *
      rw [ih]
      by_cases hmem : n ∈ List.map Prod.fst tl
      · simp [hmem, Ne.symm hk]
      · simp [hmem, Ne.symm hk]

theorem assocKeys_setAssoc_nodup {α : Type} (l : List (String × α)) (n : String) (v : α)
    (h : (assocKeys l).Nodup) : (assocKeys (setAssoc l n v)).Nodup := by
  rw [assocKeys_setAssoc]
  by_cases hmem : n ∈ assocKeys l
  · simpa [hmem] using h
  · simp only [hmem, if_neg, ite_false]
    simpa [List.nodup_append] using ⟨h, hmem⟩

theorem copy_files_eq_self (src : List (String × FsEntry)) (dst : List (String × String))
    (h : ∀ n c, (n, FsEntry.file c) ∈ src → getAssoc dst n = some c) :
    copy_files src dst = dst := by
  induction src generalizing dst with
  | nil => rfl
  | cons hd rest ih =>
    obtain ⟨n, e⟩ := hd
    cases e with
    | file c =>
      have hd1 : getAssoc dst n = some c := h n c (List.mem_cons_self _ _)
      rw [copy_files, setAssoc_eq_of_getAssoc dst n c hd1]
      exact ih dst (fun m cm hm => h m cm (List.mem_cons_of_mem _ hm))
    | dir sub =>
      rw [copy_files]
      exact ih dst (fun m cm hm => h m cm (List.mem_cons_of_mem _ hm))

theorem getAssoc_copy_files_of_not_key (src : List (String × FsEntry))
    (dst : List (String × String)) (n : String) (h : n ∉ assocKeys src) :
    getAssoc (copy_files src dst) n = getAssoc dst n := by
  induction src generalizing dst with
  | nil => rfl
  | cons hd rest ih =>
    obtain ⟨m, e⟩ := hd
    simp only [assocKeys, List.map_cons, List.mem_cons] at h
    push_neg at h
    cases e with
    | file c =>
      rw [copy_files, ih (setAssoc dst m c) h.2]
      clear ih
      induction dst with
      | nil => simp [setAssoc, getAssoc, Ne.symm h.1]
      | cons hd2 tl2 ih2 =>
        obtain ⟨k2, w2⟩ := hd2
        by_cases h2 : k2 = m
        · subst h2
          simp [setAssoc, getAssoc, Ne.symm h.1]
        · simp only [setAssoc, if_neg h2, getAssoc]
          by_cases h3 : k2 = n
          · simp [h3]
          · simp [h3, ih2]
    | dir sub =>
      rw [copy_files]
      exact ih dst h.2

theorem getAssoc_copy_files_of_mem (src : List (String × FsEntry))
    (dst : List (String × String)) (n : String) (c : String)
    (hnd : (assocKeys src).Nodup) (hmem : (n, FsEntry.file c) ∈ src) :
    getAssoc (copy_files src dst) n = some c := by
  induction src generalizing dst with
  | nil => simp at hmem
  | cons hd rest ih =>
    obtain ⟨m, e⟩ := hd
    simp only [assocKeys, List.map_cons, List.nodup_cons] at hnd
    rcases List.mem_cons.mp hmem with h | h
    · have hm : m = n := (congrArg Prod.fst h).symm
      subst hm
      have he : e = FsEntry.file c := (congrArg Prod.snd h).symm
      subst he
      rw [copy_files]
      rw [getAssoc_copy_files_of_not_key rest (setAssoc dst m c) m hnd.1]
      exact getAssoc_setAssoc_self dst m c
    · have hmn : m ≠ n := by
        intro hc
        subst hc
        exact hnd.1 (List.mem_map.mpr ⟨(m, FsEntry.file c), h, rfl⟩)
      cases e with
      | file c2 =>
        rw [copy_files]
        exact ih (setAssoc dst m c2) hnd.2 h
      | dir sub =>
        rw [copy_files]
        exact ih dst hnd.2 h

/-! ### C1 -/

/-- C1: the cleanup guarantee fails on the code.  With one AVAILABLE client
and num_envs = 1, train_model reserves the client and then raises IndexError
at the pair-extraction line, before the try and finally statement is
entered; the run re-raises with the reserved client still RESERVED and
still held by the experiment, so a client reserved by the run is not set
back to AVAILABLE on this exit path. -/
theorem c1_reserved_client_left_reserved :
    (train_model sampleDB sampleExp RunOutcome.success 1 3).exit
        = TrainExit.exc PyError.indexError ∧
    (train_model sampleDB sampleExp RunOutcome.success 1 3).db.clients
        = [{ address := "localhost:10000", status := ClientStatus.RESERVED,
             currentExperiment := some 7 }] ∧
    (train_model sampleDB sampleExp RunOutcome.success 1 3).trace.all
        (fun ev => ev ≠ Event.clientReleased "localhost:10000") = true :=
  ⟨rfl, rfl, rfl⟩

/-! ### C3 -/

/-- C3: the pair appended to the reserved client list is not obtained by
splitting the reservation address.  At the first reservation the pool list
is empty, so the expression of line 113 of experiment_utils.py raises
IndexError, whereas parsing the returned address host:port as the
specification intends yields the pair (localhost, 10000). -/
theorem c3_client_pair_indexes_pool :
    clientPairExpr [] "localhost:10000" = Except.error PyError.indexError ∧
    specParseClient "localhost:10000" = some ("localhost", (10000 : Int)) := by
  exact ⟨rfl, by decide⟩

/-! ### C4 -/

/-- C4: the advertised status sequences fail on the code.  Starting a new
a2c experiment against a pool with one AVAILABLE client writes PENDING, and
the spawned train_model run then dies with IndexError in the reservation
phase, before the PENDING to RUNNING write; no further status is ever
written, so the complete observed sequence is the singleton PENDING, which
is not among the sequences the property permits. -/
theorem c4_status_sequence_stuck_pending :
    get_experiment c4Facade.db 7 = some { c4Exp with pid := some 41 } ∧
    statusWritesOf 7 (c4Facade.trace
        ++ (train_model c4Facade.db c4Exp RunOutcome.success 1 3).trace)
      = [ExperimentStatus.PENDING] ∧
    (train_model c4Facade.db c4Exp RunOutcome.success 1 3).exit
      = TrainExit.exc PyError.indexError ∧
    specStatusSeq [ExperimentStatus.PENDING] = false :=
  ⟨rfl, rfl, rfl, rfl⟩

/-! ### C9 -/

theorem startLoopAux_spec (fail : Nat → Bool) (maxRetries : Nat) :
    ∀ rem retry, retry + rem = maxRetries + 1 →
      (startLoopAux fail maxRetries retry rem).1 ≤ rem ∧
      (0 < rem →
        (startLoopAux fail maxRetries retry rem).2.1 + 1
          = (startLoopAux fail maxRetries retry rem).1) ∧
      ((startLoopAux fail maxRetries retry rem).2.2 = true ↔
        (0 < rem ∧ ∀ i, retry ≤ i → i ≤ maxRetries → fail i = true)) := by
  intro rem
  induction rem with
  | zero =>
    intro retry _
    refine ⟨Nat.le_refl 0, fun h => absurd h (Nat.lt_irrefl 0), ?_⟩
    constructor
    · intro h
      exact absurd h Bool.false_ne_true
    · rintro ⟨h, -⟩
      exact absurd h (Nat.lt_irrefl 0)
  | succ rem ih =>
    intro retry hinv
    have hle : retry ≤ maxRetries := by omega
    cases hf : fail retry with
    | false =>
      have hval : startLoopAux fail maxRetries retry (rem + 1) = (1, 0, false) := by
        simp [startLoopAux, hf]
      rw [hval]
      refine ⟨by omega, fun _ => rfl, ?_⟩
      constructor
      · intro h
        exact absurd h Bool.false_ne_true
      · rintro ⟨-, hall⟩
        have hc := hall retry (Nat.le_refl retry) hle
        rw [hf] at hc
        exact absurd hc Bool.false_ne_true
    | true =>
      by_cases hm : retry = maxRetries
      · have hrem : rem = 0 := by omega
        subst hrem
        have hf2 : fail maxRetries = true := hm ▸ hf
        have hval : startLoopAux fail maxRetries retry 1 = (1, 0, true) := by
          simp [startLoopAux, hf, hm, hf2]
        rw [hval]
        refine ⟨by omega, fun _ => rfl, ?_⟩
        constructor
        · intro _
          refine ⟨Nat.succ_pos 0, fun i h1 h2 => ?_⟩
          have hi : i = retry := by omega
          rw [hi]
          exact hf
        · intro _
          rfl
      · have hrem : 0 < rem := by omega
        have hinv2 : (retry + 1) + rem = maxRetries + 1 := by omega
        obtain ⟨ih1, ih2, ih3⟩ := ih (retry + 1) hinv2
        have hval : startLoopAux fail maxRetries retry (rem + 1)
            = ((startLoopAux fail maxRetries (retry + 1) rem).1 + 1,
               (startLoopAux fail maxRetries (retry + 1) rem).2.1 + 1,
               (startLoopAux fail maxRetries (retry + 1) rem).2.2) := by
          simp [startLoopAux, hf, hm]
        rw [hval]
        refine ⟨by simpa using Nat.succ_le_succ ih1, fun _ => ?_, ?_⟩
        · show (startLoopAux fail maxRetries (retry + 1) rem).2.1 + 1 + 1
            = (startLoopAux fail maxRetries (retry + 1) rem).1 + 1
          rw [ih2 hrem]
        · show (startLoopAux fail maxRetries (retry + 1) rem).2.2 = true ↔ _
          rw [ih3]
          constructor
          · rintro ⟨-, hall⟩
            refine ⟨Nat.succ_pos rem, fun i h1 h2 => ?_⟩
            rcases Nat.eq_or_lt_of_le h1 with h | h
            · rw [← h]
              exact hf
            · exact hall i h h2
          · rintro ⟨-, hall⟩
            exact ⟨hrem, fun i h1 h2 => hall i (Nat.le_of_succ_le h1) h2⟩

/-- C9: mission startup in reset attempts startMission at most
max_retries + 1 times, sleeps the fixed retry interval exactly once after
every failed attempt except the final one (so the sleep count is one less
than the attempt count), re-raises the startup RuntimeError exactly when
all max_retries + 1 attempts fail, and proceeds without a startup error as
soon as some attempt succeeds. -/
theorem c9_reset_retry_policy (fail : Nat → Bool) (maxRetries : Nat) :
    (missionStartup fail maxRetries).1 ≤ maxRetries + 1 ∧
    (missionStartup fail maxRetries).2.1 + 1 = (missionStartup fail maxRetries).1 ∧
    ((missionStartup fail maxRetries).2.2 = true ↔ ∀ i ≤ maxRetries, fail i = true) := by
  obtain ⟨h1, h2, h3⟩ := startLoopAux_spec fail maxRetries (maxRetries + 1) 0 (by omega)
  refine ⟨h1, h2 (Nat.succ_pos maxRetries), ?_⟩
  show (startLoopAux fail maxRetries 0 (maxRetries + 1)).2.2 = true ↔ _
  rw [h3]
  constructor
  · rintro ⟨-, hall⟩
    exact fun i hi => hall i (Nat.zero_le i) hi
  · intro hall
    exact ⟨Nat.succ_pos maxRetries, fun i _ hi => hall i hi⟩

/-- Closed instance of the retry-policy theorem: a startup that fails twice
and then succeeds against a retry budget of three. -/
theorem c9_reset_retry_policy_witness :
    (missionStartup (fun i => decide (i < 2)) 3).1 ≤ 4 ∧
    (missionStartup (fun i => decide (i < 2)) 3).2.1 + 1
      = (missionStartup (fun i => decide (i < 2)) 3).1 :=
  ⟨(c9_reset_retry_policy (fun i => decide (i < 2)) 3).1,
   (c9_reset_retry_policy (fun i => decide (i < 2)) 3).2.1⟩

/-! ### C10 -/

theorem get_observation_num_actions (env : MalmoEnv) (ws : WorldState)
    (p : Option String × MalmoEnv) (h : get_observation env ws = Except.ok p) :
    p.2.num_actions = env.num_actions := by
  unfold get_observation at h
  split at h
  · split at h
    · simp only [Except.ok.injEq] at h
      rw [← h]
    · exact absurd h (by simp)
  · simp only [Except.ok.injEq] at h
    rw [← h]

theorem get_video_frame_num_actions (env : MalmoEnv) (ws : WorldState)
    (p : Nat × MalmoEnv) (h : get_video_frame env ws = Except.ok p) :
    p.2.num_actions = env.num_actions := by
  unfold get_video_frame at h
  split at h
  · split at h
    · simp only [Except.ok.injEq] at h
      rw [← h]
    · exact absurd h (by simp)
  · simp only [Except.ok.injEq] at h
    rw [← h]

/-- C10: a call to step made while the peeked world state reports the
mission as no longer running sends no command to the agent host, leaves the
num_actions counter unchanged, and, whenever the call returns a result
rather than raising, that result carries done = true. -/
theorem c10_step_mission_not_running (env : MalmoEnv) (wsPeek wsAfter : WorldState)
    (act : GymAction) (parser : WorldState → Nat × Int)
    (h : wsPeek.is_mission_running = false) :
    (step env wsPeek wsAfter act parser).2.2 = [] ∧
    (step env wsPeek wsAfter act parser).2.1.num_actions = env.num_actions ∧
    ∀ r, (step env wsPeek wsAfter act parser).1 = Except.ok r → r.done = true := by
  unfold step
  rw [h]
  simp only [Bool.false_eq_true, if_false]
  cases hobs : get_observation env wsPeek with
  | error e =>
    simp only [hobs]
    refine ⟨?_, ?_, fun r hr => ?_⟩
    · first
      | rfl
      | trivial
    · first
      | rfl
      | trivial
    · cases hr
  | ok p =>
    obtain ⟨obsText, env2⟩ := p
    have hna : env2.num_actions = env.num_actions :=
      get_observation_num_actions env wsPeek (obsText, env2) hobs
    simp only [hobs]
    cases hp : env2.parse_world_state with
    | true =>
      simp only [hp, if_true]
      refine ⟨?_, ?_, fun r hr => ?_⟩
      · first
        | rfl
        | trivial
      · exact hna
      · simp only [Except.ok.injEq] at hr
        rw [← hr, h]
        rfl
    | false =>
      simp only [hp, Bool.false_eq_true, if_false]
      cases hvf : get_video_frame env2 wsPeek with
      | error e =>
        simp only [hvf]
        refine ⟨?_, ?_, fun r hr => ?_⟩
        · first
          | rfl
          | trivial
        · exact hna
        · cases hr
      | ok q =>
        obtain ⟨img, env3⟩ := q
        have hna3 : env3.num_actions = env2.num_actions :=
          get_video_frame_num_actions env2 wsPeek (img, env3) hvf
        simp only [hvf]
        refine ⟨?_, ?_, fun r hr => ?_⟩
        · first
          | rfl
          | trivial
        · show env3.num_actions = env.num_actions
          rw [hna3, hna]
        · simp only [Except.ok.injEq] at hr
          rw [← hr, h]
          rfl

/-- Closed instance of the ended-mission step theorem at a concrete
environment and world state. -/
theorem c10_step_mission_not_running_witness :
    (step c10Env c10WS c10WS (GymAction.idx 0) (fun _ => (0, 0))).2.2 = [] ∧
    (step c10Env c10WS c10WS (GymAction.idx 0) (fun _ => (0, 0))).2.1.num_actions = 5 :=
  ⟨(c10_step_mission_not_running c10Env c10WS c10WS (GymAction.idx 0) (fun _ => (0, 0)) rfl).1,
   (c10_step_mission_not_running c10Env c10WS c10WS (GymAction.idx 0) (fun _ => (0, 0)) rfl).2.1⟩

/-! ### C8 -/

/-- C8: calling run_new_single_experiment_with_monitoring with a model name
that is not a registered trainer kind raises the unknown-model KeyError at
once: the database is returned unchanged, so no experiment is created or
updated and no client is reserved, and the recorded side-effect trace is
empty. -/
theorem c8_unknown_model_no_mutation (db : DB) (user : Nat) (model envId : String)
    (modelParams : List (String × PyVal)) (groupId : Option Nat)
    (freshEid freshGid : Nat) (spawn : SpawnOutcome)
    (h : registeredModels.contains model = false) :
    (run_new_single_experiment_with_monitoring db user model envId modelParams
        groupId freshEid freshGid spawn).db = db ∧
    (run_new_single_experiment_with_monitoring db user model envId modelParams
        groupId freshEid freshGid spawn).trace = [] ∧
    (run_new_single_experiment_with_monitoring db user model envId modelParams
        groupId freshEid freshGid spawn).result
      = Except.error (PyError.keyError
          ("The model " ++ model ++ " has not been implemented.")) := by
  unfold run_new_single_experiment_with_monitoring
  rw [if_pos h]
  exact ⟨rfl, rfl, rfl⟩

/-- Closed instance of the unknown-model theorem at the unregistered model
name ppo. -/
theorem c8_unknown_model_no_mutation_witness :
    (run_new_single_experiment_with_monitoring sampleDB 3 "ppo" "MinecraftBasic-v0"
        sampleParams none 7 9 (SpawnOutcome.started 41)).db = sampleDB ∧
    (run_new_single_experiment_with_monitoring sampleDB 3 "ppo" "MinecraftBasic-v0"
        sampleParams none 7 9 (SpawnOutcome.started 41)).trace = [] :=
  ⟨(c8_unknown_model_no_mutation sampleDB 3 "ppo" "MinecraftBasic-v0" sampleParams
      none 7 9 (SpawnOutcome.started 41) (by decide)).1,
   (c8_unknown_model_no_mutation sampleDB 3 "ppo" "MinecraftBasic-v0" sampleParams
      none 7 9 (SpawnOutcome.started 41) (by decide)).2.1⟩

/-! ### C6 -/

theorem find_map_update (l : List Experiment) (eid : Nat) (f : Experiment → Experiment)
    (hf : ∀ e, (f e).id = e.id) :
    (l.map (fun e => if e.id = eid then f e else e)).find? (fun e => e.id = eid)
      = Option.map f (l.find? (fun e => e.id = eid)) := by
  induction l with
  | nil => rfl
  | cons hd tl ih =>
    by_cases hh : hd.id = eid
    · simp [List.find?_cons, hh, hf hd]
    · simp [List.find?_cons, hh, ih]

theorem any_id_map_update (l : List Experiment) (eid : Nat) (f : Experiment → Experiment)
    (hf : ∀ e, (f e).id = e.id) :
    (l.map (fun e => if e.id = eid then f e else e)).any (fun e => e.id = eid)
      = l.any (fun e => e.id = eid) := by
  induction l with
  | nil => rfl
  | cons hd tl ih =>
    simp only [List.map_cons, List.any_cons, ih]
    by_cases hh : hd.id = eid
    · simp [hh, hf hd]
    · simp [hh]

theorem update_experiment_ok (db : DB) (eid : Nat) (f : Experiment → Experiment)
    (h : db.experiments.any (fun e => e.id = eid) = true) :
    update_experiment db eid f = Except.ok { db with
      experiments := db.experiments.map (fun e => if e.id = eid then f e else e) } := by
  unfold update_experiment
  rw [if_pos h]

theorem update_experiment_err (db : DB) (eid : Nat) (f : Experiment → Experiment)
    (h : db.experiments.any (fun e => e.id = eid) = false) :
    update_experiment db eid f = Except.error PyError.notFound := by
  unfold update_experiment
  rw [if_neg (by simp [h])]

theorem any_of_find (l : List Experiment) (eid : Nat) (exp : Experiment)
    (h : l.find? (fun e => e.id = eid) = some exp) :
    l.any (fun e => e.id = eid) = true := by
  have hmem := List.mem_of_find?_eq_some h
  have hpred := List.find?_some h
  exact List.any_eq_true.mpr ⟨exp, hmem, hpred⟩

/-- C6: continuing an experiment whose stored model is registered checkpoints
the log directory strictly before the load_path resume hyperparameter is
written and before the record is persisted, and persists the record with
total_timesteps increased by the requested extra steps and status reset to
PENDING. -/
theorem c6_continue_persists_and_checkpoints_first (db : DB) (userId : Nat)
    (exp : Experiment) (S : Int) (spawn : SpawnOutcome)
    (hmodel : registeredModels.contains exp.model = true)
    (hfound : get_experiment db exp.id = some exp) :
    (∃ rec2, get_experiment
        (continue_experiement_with_monitoring db userId exp S spawn).db exp.id = some rec2
      ∧ rec2.totalTimesteps = exp.totalTimesteps + S
      ∧ rec2.status = ExperimentStatus.PENDING) ∧
    (∃ suffix, (continue_experiement_with_monitoring db userId exp S spawn).trace
      = [Event.relaunchAttempt exp.id,
         Event.checkpointTaken (build_log_dir exp.id),
         Event.paramSet "load_path",
         Event.paramSet "total_timesteps",
         Event.statusWrite exp.id ExperimentStatus.PENDING,
         Event.paramsPersist exp.id] ++ suffix) := by
  have hany : db.experiments.any (fun e => e.id = exp.id) = true :=
    any_of_find db.experiments exp.id exp hfound
  have hupd := update_experiment_ok db exp.id (fun e =>
      { e with totalTimesteps := exp.totalTimesteps + S,
               status := ExperimentStatus.PENDING,
               modelParams := setAssoc
                 (setAssoc exp.modelParams "load_path"
                   (PyVal.vStr (build_log_dir exp.id ++ "/model.pkl")))
                 "total_timesteps" (PyVal.vInt S),
               owner := userId }) hany
  simp only [continue_experiement_with_monitoring]
  rw [if_neg (by rw [hmodel]; simp)]
  simp only [hupd]
  set f1 : Experiment → Experiment := fun e =>
      { e with totalTimesteps := exp.totalTimesteps + S,
               status := ExperimentStatus.PENDING,
               modelParams := setAssoc
                 (setAssoc exp.modelParams "load_path"
                   (PyVal.vStr (build_log_dir exp.id ++ "/model.pkl")))
                 "total_timesteps" (PyVal.vInt S),
               owner := userId } with hf1
  have hf1id : ∀ e, (f1 e).id = e.id := fun e => rfl
  have hfind1 : (db.experiments.map (fun e => if e.id = exp.id then f1 e else e)).find?
      (fun e => e.id = exp.id) = some (f1 exp) := by
    rw [find_map_update db.experiments exp.id f1 hf1id]
    have hfound2 : db.experiments.find? (fun e => decide (e.id = exp.id)) = some exp := hfound
    rw [hfound2]
    rfl
  cases spawn with
  | failed tb =>
    refine ⟨⟨f1 exp, ?_, rfl, rfl⟩, ⟨_, rfl⟩⟩
    exact hfind1
  | started pid =>
    have hany1 : (db.experiments.map (fun e => if e.id = exp.id then f1 e else e)).any
        (fun e => e.id = exp.id) = true := by
      rw [any_id_map_update db.experiments exp.id f1 hf1id]
      exact hany
    have hupd2 := update_experiment_ok
      { db with experiments := db.experiments.map (fun e => if e.id = exp.id then f1 e else e) }
      exp.id (fun e => { e with pid := some pid }) hany1
    simp only [hupd2]
    set f2 : Experiment → Experiment := fun e => { e with pid := some pid } with hf2
    have hf2id : ∀ e, (f2 e).id = e.id := fun e => rfl
    refine ⟨⟨f2 (f1 exp), ?_, rfl, rfl⟩, ⟨_, rfl⟩⟩
    show ((db.experiments.map (fun e => if e.id = exp.id then f1 e else e)).map
        (fun e => if e.id = exp.id then f2 e else e)).find? (fun e => e.id = exp.id)
      = some (f2 (f1 exp))
    rw [find_map_update _ exp.id f2 hf2id, hfind1]
    rfl

/-- Closed instance of the continuation theorem: resuming the completed
sample experiment with five hundred extra steps. -/
theorem c6_continue_persists_and_checkpoints_first_witness :
    (∃ rec2, get_experiment
        (continue_experiement_with_monitoring c6DB 4
          { sampleExp with status := ExperimentStatus.COMPLETED } 500
          (SpawnOutcome.started 42)).db 7 = some rec2
      ∧ rec2.totalTimesteps = 1000 + 500
      ∧ rec2.status = ExperimentStatus.PENDING) ∧
    (∃ suffix, (continue_experiement_with_monitoring c6DB 4
          { sampleExp with status := ExperimentStatus.COMPLETED } 500
          (SpawnOutcome.started 42)).trace
      = [Event.relaunchAttempt 7,
         Event.checkpointTaken (build_log_dir 7),
         Event.paramSet "load_path",
         Event.paramSet "total_timesteps",
         Event.statusWrite 7 ExperimentStatus.PENDING,
         Event.paramsPersist 7] ++ suffix) :=
  c6_continue_persists_and_checkpoints_first c6DB 4
    { sampleExp with status := ExperimentStatus.COMPLETED } 500
    (SpawnOutcome.started 42) (by decide) (by decide)

/-! ### C2 -/

theorem attemptsOf_append (a b : List Event) :
    attemptsOf (a ++ b) = attemptsOf a ++ attemptsOf b :=
  List.filterMap_append a b _

theorem messagesOf_append (a b : List Event) :
    messagesOf (a ++ b) = messagesOf a ++ messagesOf b :=
  List.filterMap_append a b _

theorem terminalsOf_append (eid : Nat) (a b : List Event) :
    terminalsOf eid (a ++ b) = terminalsOf eid a ++ terminalsOf eid b :=
  List.filterMap_append a b _

/-- Each relaunch call records exactly one attempt, its own. -/
theorem attemptsOf_continue (db : DB) (userId : Nat) (exp : Experiment) (S : Int)
    (spawn : SpawnOutcome) :
    attemptsOf (continue_experiement_with_monitoring db userId exp S spawn).trace
      = [exp.id] := by
  simp only [continue_experiement_with_monitoring]
  cases hu : update_experiment db exp.id (fun e =>
      { e with totalTimesteps := exp.totalTimesteps + S,
               status := ExperimentStatus.PENDING,
               modelParams := setAssoc
                 (setAssoc exp.modelParams "load_path"
                   (PyVal.vStr (build_log_dir exp.id ++ "/model.pkl")))
                 "total_timesteps" (PyVal.vInt S),
               owner := userId }) with
  | error e =>
    repeat' split
    all_goals simp only [hu]
    all_goals rfl
  | ok db1 =>
    repeat' split
    all_goals simp only [hu]
    all_goals rfl

/-- C2 as stated is false: relaunching the group of three experiments in
which the second relaunch raises the unknown-model error attempts the first
and second members only; the relaunch of the third member is never
attempted, because the exception propagates out of the plain loop. -/
theorem c2_group_halts_after_failure :
    attemptsOf (continue_experiment_group c2DB 3 11 500
        (fun _ => SpawnOutcome.started 50)).2.1 = [1, 2] ∧
    (continue_experiment_group c2DB 3 11 500 (fun _ => SpawnOutcome.started 50)).2.2
      = some (PyError.keyError "The model foo has not been implemented.") ∧
    (3 : Nat) ∉ attemptsOf (continue_experiment_group c2DB 3 11 500
        (fun _ => SpawnOutcome.started 50)).2.1 := by
  refine ⟨rfl, rfl, ?_⟩
  rw [show attemptsOf (continue_experiment_group c2DB 3 11 500
        (fun _ => SpawnOutcome.started 50)).2.1 = [1, 2] from rfl]
  decide

/-- C2 amended: continue_experiment_group relaunches the members in
retrieval order up to and including the first member whose relaunch raises;
that exception propagates to the caller and the relaunch of every later
member is not attempted (the attempted ids always form a prefix of the
member ids in retrieval order, and the whole list exactly when no relaunch
raised). -/
theorem c2_amended_group_relaunch_initial_segment (userId : Nat) (tt : Int)
    (spawn : Nat → SpawnOutcome) :
    ∀ (exps : List Experiment) (db : DB),
      attemptsOf (continueGroupList userId tt spawn db exps).2.1
        = (exps.map Experiment.id).take
            (attemptsOf (continueGroupList userId tt spawn db exps).2.1).length ∧
      ((continueGroupList userId tt spawn db exps).2.2 = none →
        attemptsOf (continueGroupList userId tt spawn db exps).2.1
          = exps.map Experiment.id) := by
  intro exps
  induction exps with
  | nil =>
    intro db
    exact ⟨rfl, fun _ => rfl⟩
  | cons e rest ih =>
    intro db
    unfold continueGroupList
    cases hres : (continue_experiement_with_monitoring db userId e tt (spawn e.id)).result with
    | error err =>
      simp only [hres]
      constructor
      · rw [attemptsOf_continue]
        rfl
      · intro hc
        cases hc
    | ok exp2 =>
      simp only [hres]
      obtain ⟨ih1, ih2⟩ :=
        ih (continue_experiement_with_monitoring db userId e tt (spawn e.id)).db
      constructor
      · rw [attemptsOf_append, attemptsOf_continue]
        simp only [List.singleton_append, List.length_cons, List.map_cons,
          List.take_succ_cons, List.cons.injEq]
        exact ⟨trivial, ih1⟩
      · intro hnone
        rw [attemptsOf_append, attemptsOf_continue]
        simp only [List.singleton_append, List.map_cons, List.cons.injEq]
        exact ⟨trivial, ih2 hnone⟩

/-- Closed instance of the amended statement: over a group whose relaunches
all succeed, every member is attempted in order. -/
theorem c2_amended_group_relaunch_initial_segment_witness :
    attemptsOf (continueGroupList 3 500 (fun _ => SpawnOutcome.started 50)
        (DB.mk [{ sampleExp with id := 1, groupId := 11 },
                { sampleExp with id := 3, groupId := 11 }] [sampleClient])
        (get_experiments_by_group_id
          (DB.mk [{ sampleExp with id := 1, groupId := 11 },
                  { sampleExp with id := 3, groupId := 11 }] [sampleClient]) 11)).2.1
      = [1, 3] :=
  (c2_amended_group_relaunch_initial_segment 3 500 (fun _ => SpawnOutcome.started 50)
      (get_experiments_by_group_id
        (DB.mk [{ sampleExp with id := 1, groupId := 11 },
                { sampleExp with id := 3, groupId := 11 }] [sampleClient]) 11)
      (DB.mk [{ sampleExp with id := 1, groupId := 11 },
              { sampleExp with id := 3, groupId := 11 }] [sampleClient])).2 rfl

/-! ### C7 -/

theorem not_mem_of_getAssoc_none {α : Type} (l : List (String × α)) (k : String)
    (h : getAssoc l k = none) (v : α) : (k, v) ∉ l := by
  induction l with
  | nil => simp
  | cons hd tl ih =>
    obtain ⟨k0, w0⟩ := hd
    intro hmem
    by_cases h0 : k0 = k
    · simp only [getAssoc, if_pos h0] at h
      exact Option.noConfusion h
    · simp only [getAssoc, if_neg h0] at h
      rcases List.mem_cons.mp hmem with h2 | h2
      · exact h0 (congrArg Prod.fst h2).symm
      · exact ih h h2

/-- C7: save_experiment_checkpoint is idempotent and copies every top-level
regular file.  Whenever a call on a well-formed listing succeeds with result
d1, calling it again on d1 (whose regular top-level files are those of the
original listing, unchanged) succeeds and returns d1 itself, so the
checkpoint contents after two calls equal those after one; moreover the
checkpoint subdirectory of d1 holds a copy of every regular file directly
inside the original listing, while directories, including the checkpoint
directory itself, are never copied. -/
theorem c7_checkpoint_idempotent (d d1 : List (String × FsEntry))
    (hnd : (assocKeys d).Nodup)
    (h : save_experiment_checkpoint d = Except.ok d1) :
    save_experiment_checkpoint d1 = Except.ok d1 ∧
    ∃ cp, getAssoc d1 "checkpoint" = some (FsEntry.dir cp) ∧
      ∀ n c, (n, FsEntry.file c) ∈ d → getAssoc cp n = some c := by
  unfold save_experiment_checkpoint at h
  cases hck : getAssoc d "checkpoint" with
  | none =>
    rw [hck] at h
    simp only [Except.ok.injEq] at h
    have hd1 : d1 = setAssoc (setAssoc d "checkpoint" (FsEntry.dir []))
        "checkpoint"
        (FsEntry.dir (copy_files (setAssoc d "checkpoint" (FsEntry.dir [])) [])) := h.symm
    have hnd2 : (assocKeys (setAssoc d "checkpoint" (FsEntry.dir []))).Nodup :=
      assocKeys_setAssoc_nodup d "checkpoint" (FsEntry.dir []) hnd
    have hmemd2 : ∀ n c, (n, FsEntry.file c) ∈ d →
        (n, FsEntry.file c) ∈ setAssoc d "checkpoint" (FsEntry.dir []) := by
      intro n c hm
      have hne : n ≠ "checkpoint" := by
        intro hc
        subst hc
        exact not_mem_of_getAssoc_none d "checkpoint" hck (FsEntry.file c) hm
      exact mem_setAssoc_of_mem_of_ne d "checkpoint" (FsEntry.dir []) n (FsEntry.file c) hne hm
    have hcp : ∀ n c, (n, FsEntry.file c) ∈ d →
        getAssoc (copy_files (setAssoc d "checkpoint" (FsEntry.dir [])) []) n = some c :=
      fun n c hm => getAssoc_copy_files_of_mem _ [] n c hnd2 (hmemd2 n c hm)
    have hget : getAssoc d1 "checkpoint"
        = some (FsEntry.dir (copy_files (setAssoc d "checkpoint" (FsEntry.dir [])) [])) := by
      rw [hd1]
      exact getAssoc_setAssoc_self _ _ _
    have hfilesd1 : ∀ n c, (n, FsEntry.file c) ∈ d1 →
        getAssoc (copy_files (setAssoc d "checkpoint" (FsEntry.dir [])) []) n = some c := by
      intro n c hm
      rw [hd1] at hm
      rcases mem_setAssoc _ _ _ _ hm with h2 | h2
      · rcases mem_setAssoc _ _ _ _ h2 with h3 | h3
        · exact hcp n c h3
        · exact absurd (congrArg Prod.snd h3) (by simp)
      · exact absurd (congrArg Prod.snd h2) (by simp)
    have hcopy1 : copy_files d1 (copy_files (setAssoc d "checkpoint" (FsEntry.dir [])) [])
        = copy_files (setAssoc d "checkpoint" (FsEntry.dir [])) [] :=
      copy_files_eq_self d1 _ hfilesd1
    refine ⟨?_, copy_files (setAssoc d "checkpoint" (FsEntry.dir [])) [], hget, hcp⟩
    unfold save_experiment_checkpoint
    simp only [hget]
    rw [hcopy1, setAssoc_eq_of_getAssoc d1 "checkpoint" _ hget]
  | some entry =>
    cases entry with
    | file c0 =>
      rw [hck] at h
      cases h
    | dir cp =>
      rw [hck] at h
      simp only [Except.ok.injEq] at h
      have hd1 : d1 = setAssoc d "checkpoint" (FsEntry.dir (copy_files d cp)) := h.symm
      have hcp : ∀ n c, (n, FsEntry.file c) ∈ d → getAssoc (copy_files d cp) n = some c :=
        fun n c hm => getAssoc_copy_files_of_mem d cp n c hnd hm
      have hget : getAssoc d1 "checkpoint" = some (FsEntry.dir (copy_files d cp)) := by
        rw [hd1]
        exact getAssoc_setAssoc_self _ _ _
      have hfilesd1 : ∀ n c, (n, FsEntry.file c) ∈ d1 →
          getAssoc (copy_files d cp) n = some c := by
        intro n c hm
        rw [hd1] at hm
        rcases mem_setAssoc _ _ _ _ hm with h2 | h2
        · exact hcp n c h2
        · exact absurd (congrArg Prod.snd h2) (by simp)
      have hcopy1 : copy_files d1 (copy_files d cp) = copy_files d cp :=
        copy_files_eq_self d1 _ hfilesd1
      refine ⟨?_, copy_files d cp, hget, hcp⟩
      unfold save_experiment_checkpoint
      simp only [hget]
      rw [hcopy1, setAssoc_eq_of_getAssoc d1 "checkpoint" _ hget]

/-- Closed instance of the idempotence theorem: a second checkpoint of the
sample log directory returns it unchanged. -/
theorem c7_checkpoint_idempotent_witness :
    save_experiment_checkpoint c7Dir1 = Except.ok c7Dir1 :=
  (c7_checkpoint_idempotent c7Dir c7Dir1 (by decide) rfl).1

/-! ### C5 -/

theorem clientWaitLoop_plain (eid : Nat) :
    ∀ fuel db, ∀ ev ∈ (clientWaitLoop eid fuel db).2.1, reserveEvent ev := by
  intro fuel
  induction fuel with
  | zero =>
    intro db ev h
    simp [clientWaitLoop] at h
  | succ fuel ih =>
    intro db ev h
    simp only [clientWaitLoop] at h
    cases hr : (find_and_reserve_client db eid).1 with
    | some a =>
      simp only [hr] at h
      rcases List.mem_cons.mp h with h2 | h2
      · rw [h2]; trivial
      · rcases List.mem_cons.mp h2 with h3 | h3
        · rw [h3]; trivial
        · simp at h3
    | none =>
      simp only [hr] at h
      rcases List.mem_cons.mp h with h2 | h2
      · rw [h2]; trivial
      · exact ih (find_and_reserve_client db eid).2 ev h2

theorem reservePhase_plain (eid fuel : Nat) :
    ∀ n db pool last ev, ev ∈ resvTrace (reservePhase eid fuel n db pool last) →
      reserveEvent ev := by
  intro n
  induction n with
  | zero =>
    intro db pool last ev h
    simp [reservePhase, resvTrace] at h
  | succ n ih =>
    intro db pool last ev h
    simp only [reservePhase] at h
    cases hw : (clientWaitLoop eid fuel db).2.2 with
    | none =>
      simp only [hw] at h
      exact clientWaitLoop_plain eid fuel db ev h
    | some addr =>
      simp only [hw] at h
      cases hp : clientPairExpr pool addr with
      | error e =>
        simp only [hp] at h
        exact clientWaitLoop_plain eid fuel db ev h
      | ok pair =>
        simp only [hp] at h
        have ihr := ih (clientWaitLoop eid fuel db).1 (pool ++ [pair]) (some addr) ev
        cases hrec : reservePhase eid fuel n (clientWaitLoop eid fuel db).1
            (pool ++ [pair]) (some addr) with
        | finished db2 tr2 pool2 last2 =>
          simp only [hrec] at h
          rcases List.mem_append.mp h with h2 | h2
          · exact clientWaitLoop_plain eid fuel db ev h2
          · rw [hrec] at ihr
            exact ihr h2
        | raised db2 tr2 e =>
          simp only [hrec] at h
          rcases List.mem_append.mp h with h2 | h2
          · exact clientWaitLoop_plain eid fuel db ev h2
          · rw [hrec] at ihr
            exact ihr h2
        | hung db2 tr2 =>
          simp only [hrec] at h
          rcases List.mem_append.mp h with h2 | h2
          · exact clientWaitLoop_plain eid fuel db ev h2
          · rw [hrec] at ihr
            exact ihr h2

theorem messagesOf_plain (tr : List Event) (h : ∀ ev ∈ tr, reserveEvent ev) :
    messagesOf tr = [] := by
  unfold messagesOf
  rw [List.filterMap_eq_nil_iff]
  intro ev hev
  have hv := h ev hev
  cases ev <;> first
    | rfl
    | exact False.elim hv

theorem terminalsOf_plain (eid : Nat) (tr : List Event)
    (h : ∀ ev ∈ tr, reserveEvent ev) : terminalsOf eid tr = [] := by
  unfold terminalsOf
  rw [List.filterMap_eq_nil_iff]
  intro ev hev
  have hv := h ev hev
  cases ev <;> first
    | rfl
    | exact False.elim hv

theorem releaseFinally_trace (db : DB) (tr : List Event) (lastAddr : Option String)
    (p : Pending) (eid : Nat) :
    ∃ extra, (releaseFinally db tr lastAddr p).trace = tr ++ extra ∧
      messagesOf extra = [] ∧ terminalsOf eid extra = [] := by
  cases lastAddr with
  | none => exact ⟨[Event.monitorStop], rfl, rfl, rfl⟩
  | some addr =>
    cases hu : update_client db addr (fun c =>
        { c with status := ClientStatus.AVALIABLE, currentExperiment := none }) with
    | ok db2 =>
      refine ⟨[Event.monitorStop, Event.clientReleased addr], ?_, rfl, rfl⟩
      show (releaseFinally db tr (some addr) p).trace = _
      unfold releaseFinally
      simp only [hu]
      simp [List.append_assoc]
    | error e =>
      refine ⟨[Event.monitorStop], ?_, rfl, rfl⟩
      show (releaseFinally db tr (some addr) p).trace = _
      unfold releaseFinally
      simp only [hu]

theorem trainBody_messages (db : DB) (exp : Experiment) (outcome : RunOutcome)
    (lastAddr : Option String) :
    messagesOf (trainBody db exp outcome lastAddr).trace
      = (terminalsOf exp.id (trainBody db exp outcome lastAddr).trace).map
          (terminalMsg exp outcome) ∧
    ∀ m ∈ messagesOf (trainBody db exp outcome lastAddr).trace,
      m = (exp.owner, doneMsg exp.id) ∨ ∃ p, m.2 = p ++ outcomeTb outcome := by
  cases hany : db.experiments.any (fun e => e.id = exp.id) with
  | false =>
    have h1 := update_experiment_err db exp.id
      (fun e => { e with status := ExperimentStatus.RUNNING }) hany
    have h2 := update_experiment_err db exp.id
      (fun e => { e with status := ExperimentStatus.FAILED, endDateSet := true }) hany
    unfold trainBody exceptBranch
    simp only [h1, h2]
    obtain ⟨extra, hext, hm, ht⟩ := releaseFinally_trace db ([] ++ [Event.monitorStop])
        lastAddr (Pending.py PyError.notFound) exp.id
    rw [hext]
    constructor
    · rw [messagesOf_append, terminalsOf_append, hm, ht]
      rfl
    · intro m hm2
      rw [messagesOf_append, hm] at hm2
      simp [messagesOf] at hm2
  | true =>
    have h1 := update_experiment_ok db exp.id
      (fun e => { e with status := ExperimentStatus.RUNNING }) hany
    have hany1 : ({ db with experiments := db.experiments.map (fun e =>
        if e.id = exp.id then { e with status := ExperimentStatus.RUNNING } else e) }
          : DB).experiments.any (fun e => e.id = exp.id) = true := by
      show (db.experiments.map _).any _ = true
      rw [any_id_map_update db.experiments exp.id
        (fun e => { e with status := ExperimentStatus.RUNNING }) (fun e => rfl)]
      exact hany
    unfold trainBody
    simp only [h1]
    cases outcome with
    | failure tb =>
      unfold exceptBranch
      have h2 := update_experiment_ok _ exp.id
        (fun e => { e with status := ExperimentStatus.FAILED, endDateSet := true }) hany1
      simp only [h2]
      obtain ⟨extra, hext, hm, ht⟩ := releaseFinally_trace _
          (([Event.statusWrite exp.id ExperimentStatus.RUNNING, Event.monitorStart]
              ++ [Event.monitorStop])
            ++ [Event.statusWrite exp.id ExperimentStatus.FAILED,
                Event.endDateWrite exp.id,
                Event.messageSent exp.owner
                  (failMsg exp.id (pendingTb (Pending.trainer tb)))])
          lastAddr (Pending.trainer tb) exp.id
      rw [hext]
      constructor
      · rw [messagesOf_append, terminalsOf_append, hm, ht]
        simp [messagesOf, terminalsOf, terminalMsg, outcomeTb, pendingTb]
      · intro m hm2
        rw [messagesOf_append, hm] at hm2
        simp [messagesOf, pendingTb] at hm2
        right
        rw [hm2]
        exact ⟨failMsgPre exp.id, rfl⟩
    | success =>
      have h2 := update_experiment_ok _ exp.id
        (fun e => { e with status := ExperimentStatus.COMPLETED, endDateSet := true }) hany1
      simp only [h2]
      obtain ⟨extra, hext, hm, ht⟩ := releaseFinally_trace _
          ([Event.statusWrite exp.id ExperimentStatus.RUNNING, Event.monitorStart]
            ++ [Event.statusWrite exp.id ExperimentStatus.COMPLETED,
                Event.endDateWrite exp.id,
                Event.messageSent exp.owner (doneMsg exp.id)])
          lastAddr Pending.nothing exp.id
      rw [hext]
      constructor
      · rw [messagesOf_append, terminalsOf_append, hm, ht]
        simp [messagesOf, terminalsOf, terminalMsg]
      · intro m hm2
        rw [messagesOf_append, hm] at hm2
        simp [messagesOf] at hm2
        left
        rw [hm2]

/-- C5: over every run of train_model, the owner messages recorded are
exactly one per terminal status write, in order, with the failure text for a
FAILED write and the completion text for a COMPLETED write; no message
accompanies the PENDING to RUNNING write, and every failure message carries
the full captured traceback of the exception that failed the run as a
suffix. -/
theorem c5_terminal_transition_messages (db : DB) (exp : Experiment)
    (outcome : RunOutcome) (num_envs fuel : Nat) :
    messagesOf (train_model db exp outcome num_envs fuel).trace
      = (terminalsOf exp.id (train_model db exp outcome num_envs fuel).trace).map
          (terminalMsg exp outcome) ∧
    ∀ m ∈ messagesOf (train_model db exp outcome num_envs fuel).trace,
      m = (exp.owner, doneMsg exp.id) ∨ ∃ p, m.2 = p ++ outcomeTb outcome := by
  unfold train_model
  cases hres : reservePhase exp.id fuel num_envs db [] none with
  | raised db2 tr2 e =>
    have hplain : ∀ ev ∈ tr2, reserveEvent ev := by
      have hall := reservePhase_plain exp.id fuel num_envs db [] none
      rw [hres] at hall
      exact fun ev hv => hall ev hv
    rw [messagesOf_plain tr2 hplain, terminalsOf_plain exp.id tr2 hplain]
    exact ⟨rfl, fun m hm => absurd hm (by simp)⟩
  | hung db2 tr2 =>
    have hplain : ∀ ev ∈ tr2, reserveEvent ev := by
      have hall := reservePhase_plain exp.id fuel num_envs db [] none
      rw [hres] at hall
      exact fun ev hv => hall ev hv
    rw [messagesOf_plain tr2 hplain, terminalsOf_plain exp.id tr2 hplain]
    exact ⟨rfl, fun m hm => absurd hm (by simp)⟩
  | finished db2 tr2 pool lastAddr =>
    have hplain : ∀ ev ∈ tr2, reserveEvent ev := by
      have hall := reservePhase_plain exp.id fuel num_envs db [] none
      rw [hres] at hall
      exact fun ev hv => hall ev hv
    obtain ⟨hb1, hb2⟩ := trainBody_messages db2 exp outcome lastAddr
    rw [messagesOf_append, terminalsOf_append,
        messagesOf_plain tr2 hplain, terminalsOf_plain exp.id tr2 hplain]
    constructor
    · simpa using hb1
    · intro m hm2
      simp only [List.nil_append] at hm2
      exact hb2 m hm2

/-- Closed instance of the terminal-message theorem: a run whose training
entry point raises with traceback text BOOM sends the failure message
carrying BOOM as a suffix. -/
theorem c5_terminal_transition_messages_witness :
    messagesOf (train_model sampleDB sampleExp (RunOutcome.failure "BOOM") 0 1).trace
      = (terminalsOf 7
            (train_model sampleDB sampleExp (RunOutcome.failure "BOOM") 0 1).trace).map
          (terminalMsg sampleExp (RunOutcome.failure "BOOM")) ∧
    (((3 : Nat), failMsg 7 "BOOM") = ((3 : Nat), doneMsg 7) ∨
      ∃ p, ((3 : Nat), failMsg 7 "BOOM").2 = p ++ outcomeTb (RunOutcome.failure "BOOM")) :=
  ⟨(c5_terminal_transition_messages sampleDB sampleExp (RunOutcome.failure "BOOM") 0 1).1,
   (c5_terminal_transition_messages sampleDB sampleExp (RunOutcome.failure "BOOM") 0 1).2
     ((3 : Nat), failMsg 7 "BOOM") (by decide)⟩

end GymMalmo

